import Mathlib

/-!
Verification of the muSR_Visualization numeric core against its
specification.  The Python sources `BeamsModel.py` and
`beams/app/model/fit.py` are shallowly embedded: histograms and asymmetry
series are lists or functions over `ℚ` (the float values the program
manipulates), elementwise float pathologies (NaN from 0/0, signed
infinities from x/0) are made explicit in an inductive value type, and the
external numerical libraries (sympy's parser, NumPy's FFT, SciPy's spline)
appear as oracle parameters.  Real-valued square roots, which the source
applies as a final cosmetic step to rational quantities, are applied in
theorem statements via `Real.sqrt` so that every definition stays
computable.
-/

namespace Beams

/-! ## Float value model for the asymmetry pipeline (BeamsModel.py) -/

/-- Result of an elementwise float operation as numpy/pandas perform it:
a finite (exactly represented) value, NaN, or a signed infinity. -/
inductive FVal
  | fin (q : ℚ)
  | nan
  | posInf
  | negInf
deriving DecidableEq, Repr

/-- Elementwise float division as numpy/pandas perform it on finite
operands: `0/0` is NaN, `x/0` with `x` positive (negative) is `+inf`
(`-inf`), and otherwise the exact quotient. -/
def fdiv (num den : ℚ) : FVal :=
  if den = 0 then
    if num = 0 then FVal.nan
    else if 0 < num then FVal.posInf
    else FVal.negInf
  else FVal.fin (num / den)

/-- pandas `Series.fillna(0.0)`: NaN entries become `0.0`; finite and
infinite entries are unchanged. -/
def fillna (v : FVal) : FVal :=
  match v with
  | FVal.nan => FVal.fin 0
  | v => v

/-- The `start_bin` clamp of `calculate_asymmetry` (BeamsModel.py, lines
232-234): the larger of the two `GoodBinOne` values. -/
def start_bin (goodOne1 goodOne2 : ℕ) : ℕ :=
  if goodOne1 < goodOne2 then goodOne2 else goodOne1

/-- The `end_bin` clamp of `calculate_asymmetry` (BeamsModel.py, lines
236-238): the smaller of the two `GoodBinTwo` values. -/
def end_bin (goodTwo1 goodTwo2 : ℕ) : ℕ :=
  if goodTwo2 < goodTwo1 then goodTwo2 else goodTwo1

/-- `RunData.calculate_asymmetry` (BeamsModel.py, lines 229-245).
Histograms are total functions from bin index to count.  `goodOne1` and
`goodOne2` are `GoodBinOne` for `hist_one` and `hist_two`; `goodTwo1` and
`goodTwo2` are `GoodBinTwo`.  The source clamps `start_bin` up to the
larger of the two start bins and `end_bin` down to the smaller of the two
end bins, then computes, over the inclusive label range
`start_bin..end_bin` (`pandas .loc` slicing is inclusive),
`((H1 - bkg1) - (H2 - bkg2)) / ((H2 - bkg2) + (H1 - bkg1))` and fills NaN
entries with `0.0`. -/
def calculate_asymmetry (hist_one hist_two : ℕ → ℚ)
    (goodOne1 goodOne2 goodTwo1 goodTwo2 : ℕ) (bkg_one bkg_two : ℚ) :
    List FVal :=
  (List.range (end_bin goodTwo1 goodTwo2 + 1 -
      start_bin goodOne1 goodOne2)).map fun j =>
    let i := start_bin goodOne1 goodOne2 + j
    fillna (fdiv ((hist_one i - bkg_one) - (hist_two i - bkg_two))
                 ((hist_two i - bkg_two) + (hist_one i - bkg_one)))

/-- C1: over the intersected good region, the asymmetry at each index
equals `((H1(i)-bkg1)-(H2(i)-bkg2))/((H1(i)-bkg1)+(H2(i)-bkg2))` whenever
the denominator is nonzero, and at every `0/0` position the returned value
is exactly `0.0`, not NaN. -/
theorem C1_asymmetry_formula (hist_one hist_two : ℕ → ℚ)
    (goodOne1 goodOne2 goodTwo1 goodTwo2 : ℕ) (bkg_one bkg_two : ℚ)
    (j : ℕ)
    (hj : j < end_bin goodTwo1 goodTwo2 + 1 - start_bin goodOne1 goodOne2) :
    let i := start_bin goodOne1 goodOne2 + j
    let num := (hist_one i - bkg_one) - (hist_two i - bkg_two)
    let den := (hist_one i - bkg_one) + (hist_two i - bkg_two)
    (den ≠ 0 →
      (calculate_asymmetry hist_one hist_two goodOne1 goodOne2 goodTwo1
          goodTwo2 bkg_one bkg_two)[j]? = some (FVal.fin (num / den))) ∧
    (den = 0 → num = 0 →
      (calculate_asymmetry hist_one hist_two goodOne1 goodOne2 goodTwo1
          goodTwo2 bkg_one bkg_two)[j]? = some (FVal.fin 0)) := by
  intro i num den
  have hnum_def : num = (hist_one i - bkg_one) - (hist_two i - bkg_two) := rfl
  have hden_def : den = (hist_one i - bkg_one) + (hist_two i - bkg_two) := rfl
  have hget :
      (calculate_asymmetry hist_one hist_two goodOne1 goodOne2 goodTwo1
          goodTwo2 bkg_one bkg_two)[j]? =
        some (fillna (fdiv ((hist_one i - bkg_one) - (hist_two i - bkg_two))
          ((hist_two i - bkg_two) + (hist_one i - bkg_one)))) := by
    simp only [calculate_asymmetry, List.getElem?_map, List.getElem?_range hj,
      Option.map_some']
  constructor
  · intro hden
    rw [hden_def] at hden
    have hswap : (hist_two i - bkg_two) + (hist_one i - bkg_one) ≠ 0 := by
      intro h; exact hden (by linarith)
    rw [hget]
    simp only [fdiv, if_neg hswap, fillna]
    have h2 : (hist_two i - bkg_two) + (hist_one i - bkg_one) = den := by
      rw [hden_def]; ring
    have h3 : (hist_one i - bkg_one) - (hist_two i - bkg_two) = num := by
      rw [hnum_def]
    rw [h2, h3]
  · intro hden hnum
    rw [hden_def] at hden
    rw [hnum_def] at hnum
    have hswap : (hist_two i - bkg_two) + (hist_one i - bkg_one) = 0 := by
      linarith
    rw [hget]
    simp only [fdiv, if_pos hswap, if_pos hnum, fillna]

/-- Witness for C1 at a concrete run: two 3-bin histograms with good
regions [0,2] and [1,2] (intersection [1,2]), backgrounds 1 and 2.  At
index j = 0 (bin 1) the histograms are H1(1)=3, H2(1)=4 so the denominator
is (3-1)+(4-2)=4 and the value is ((3-1)-(4-2))/4 = 0; at j = 1 (bin 2)
H1(2)=1, H2(2)=2 gives a 0/0 position whose value is forced to 0.0. -/
theorem C1_asymmetry_formula_witness :
    (calculate_asymmetry (fun i => if i = 1 then 3 else 1)
        (fun i => if i = 1 then 4 else 2) 0 1 2 2 1 2)[1]? =
      some (FVal.fin 0) := by
  have h := C1_asymmetry_formula (fun i => if i = 1 then 3 else 1)
    (fun i => if i = 1 then 4 else 2) 0 1 2 2 1 2 1 (by decide)
  exact h.2 (by norm_num [start_bin]) (by norm_num [start_bin])

/-! ## Fit specification data model (beams/app/model/fit.py) -/

/-- `FitVar` (fit.py, lines 63-77): a named parameter with a stored value,
fixed and global flags, and bounds. -/
structure FitVar where
  symbol : String
  name : String
  value : ℚ
  is_fixed : Bool
  lower : ℚ
  upper : ℚ
  is_global : Bool
  independent : Bool
deriving DecidableEq, Repr

/-- `FitSpec` (fit.py, lines 80-240): the model string, the insertion-ordered
map of parameter symbol to `FitVar` (a Python dict preserves insertion
order, so it is an association list here; the source field is named
`variables`, a Lean keyword, hence `vars`), and the insertion-ordered map
of run identifier to asymmetry dataset.  The option flags are carried
separately by the theorems that need them. -/
structure FitSpec where
  function : String
  vars : List (String × FitVar)
  asymmetries : List (String × List ℚ)
deriving Repr

/-- `_shortened_run_id` (fit.py, lines 605-606): `run_id.split('-')[0]`, the
prefix of the run id before its first dash. -/
def shortened_run_id (run_id : String) : String :=
  ⟨run_id.data.takeWhile (fun c => c ≠ '-')⟩

/-- The dataset-length guard at the top of `FitEngine.fit` (fit.py, line
286): `len(set([len(asymmetry) for asymmetry in spec.get_data()])) != 1`
raises ValueError.  `spec.get_data()` returns the asymmetries dict, and
Python iteration over a dict yields its KEYS, so each `len(asymmetry)`
measures the run-identifier string, not the dataset.  Returns `true` when
the guard passes (no ValueError is raised). -/
def fit_length_guard (asymmetries : List (String × List ℚ)) : Bool :=
  ((asymmetries.map fun p => p.1.length).dedup).length = 1

/-- C2 (code_bug evaluation): the claim says a fit whose datasets are not
all of equal length raises ValueError, but the guard measures the
run-identifier strings.  With run ids "aa" and "bb" (both of length 2) and
datasets of lengths 3 and 2, the guard passes and no ValueError is raised
even though the dataset lengths differ. -/
theorem C2_fit_guard_misses_unequal_datasets :
    fit_length_guard [("aa", [1, 2, 3]), ("bb", [1, 2])] = true ∧
    (([("aa", ([1, 2, 3] : List ℚ)), ("bb", [1, 2])].map
        fun p => p.2.length).dedup).length ≠ 1 := by
  constructor
  · rfl
  · decide

/-! ## Fit evaluation (`Fit.__call__`, fit.py lines 254-278) -/

/-- A Python positional argument as `Fit.__call__` discriminates it: either
a numpy ndarray of values or any other object. -/
inductive PyArg
  | ndarray (a : List ℚ)
  | other
deriving DecidableEq, Repr

/-- The `Fit` object (fit.py, lines 254-278): its `variables` dict (named
`vars` here since `variables` is a Lean keyword) and the `kwargs` computed
by the `variables` setter, which keeps `var.symbol -> var.value` for every
variable that is not fixed. -/
structure Fit where
  vars : List (String × FitVar)
deriving Repr

/-- The `kwargs` dict built by the `Fit.variables` setter (fit.py, lines
267-273): the symbol/value pairs of the variables whose fixed flag is not
set. -/
def Fit.kwargs (f : Fit) : List (String × ℚ) :=
  (f.vars.filter fun sv => !sv.2.is_fixed).map fun sv =>
    (sv.2.symbol, sv.2.value)

/-- `Fit.__call__` (fit.py, lines 275-278): raises ValueError when there is
no positional argument or the first one is not a numpy ndarray; otherwise
evaluates the compiled lambda at the array with the stored kwargs.
`lam` is the compiled `expression_as_lambda`. -/
def Fit.call (f : Fit) (lam : List ℚ → List (String × ℚ) → List ℚ)
    (args : List PyArg) : Except String (List ℚ) :=
  match args with
  | PyArg.ndarray a :: _ => Except.ok (lam a f.kwargs)
  | _ => Except.error "Only takes numpy array of values as an input."

/-- C10: calling a Fit with no positional arguments, or with a first
positional argument that is not an ndarray, raises ValueError; with an
ndarray first argument it evaluates the compiled expression with the
stored unfixed-parameter values. -/
theorem C10_fit_call (f : Fit) (lam : List ℚ → List (String × ℚ) → List ℚ) :
    (f.call lam [] =
      Except.error "Only takes numpy array of values as an input.") ∧
    (∀ rest : List PyArg, f.call lam (PyArg.other :: rest) =
      Except.error "Only takes numpy array of values as an input.") ∧
    (∀ (a : List ℚ) (rest : List PyArg),
      f.call lam (PyArg.ndarray a :: rest) =
        Except.ok (lam a ((f.vars.filter fun sv =>
          !sv.2.is_fixed).map fun sv => (sv.2.symbol, sv.2.value)))) :=
  ⟨rfl, fun _ => rfl, fun _ _ => rfl⟩

/-! ## Global fit unknown-vector layout and value scatter (fit.py) -/

/-- `FitSpec.get_global_fit_symbols` (fit.py, lines 171-183): skip fixed
variables; a non-global variable contributes one run-suffixed symbol per
run, a global one contributes its own symbol once. -/
def get_global_fit_symbols (spec : FitSpec) : List String :=
  spec.vars.flatMap fun sv =>
    if sv.2.is_fixed then []
    else if !sv.2.is_global then
      spec.asymmetries.map fun ra => sv.1 ++ shortened_run_id ra.1
    else [sv.1]

/-- The value-scatter loop of `FitEngine._least_squares_fit_global`
(fit.py, lines 329-333): for EVERY variable in `final_variables` — the
loop does not skip fixed ones — it reads the optimized value from the
`values` dict, keyed by the run-suffixed symbol for non-global variables
and by the bare symbol for global ones.  A missing key raises KeyError in
Python, modelled here by `none`. -/
def scatter_global_values (varlist : List (String × FitVar))
    (values : List (String × ℚ)) (run_id : String) :
    Option (List (String × ℚ)) :=
  varlist.mapM fun sv =>
    if !sv.2.is_global then
      (values.lookup (sv.1 ++ shortened_run_id run_id)).map fun v => (sv.1, v)
    else
      (values.lookup sv.1).map fun v => (sv.1, v)

/-- C4 (code_bug evaluation): in a global fit with a fixed parameter, the
optimized-value dict `values` is keyed by `get_global_fit_symbols`, which
excludes fixed parameters, while the scatter loop looks every parameter
up.  With a single fixed parameter "c" and one run "run1", the symbol list
is empty, so the dict is empty and the scatter lookup fails (Python
KeyError): no FitResult carrying the fixed parameter's stored value is
ever produced, contradicting the claim that the value is taken verbatim
into the result. -/
theorem C4_global_fixed_scatter_fails :
    let cvar : FitVar :=
      { symbol := "c", name := "c", value := 1, is_fixed := true,
        lower := 0, upper := 4, is_global := false, independent := false }
    let spec : FitSpec :=
      { function := "c*t", vars := [("c", cvar)],
        asymmetries := [("run1", [0, 1, 2])] }
    get_global_fit_symbols spec = [] ∧
    scatter_global_values spec.vars
      (List.zip (get_global_fit_symbols spec) []) "run1" = none := by
  constructor
  · rfl
  · rfl

/-- The per-variable update of `FitEngine._least_squares_fit_non_global`
(fit.py, lines 362-375): `final_variables` starts as a copy of the spec's
variables; only the symbols in `get_unfixed_symbols()` have their value
overwritten by the optimizer output, every other variable keeps its stored
value.  `opt_values` associates each unfixed symbol with its optimized
value (the `opt.x[i]` of the enumeration). -/
def resolve_non_global_values (varlist : List (String × FitVar))
    (opt_values : List (String × ℚ)) : List (String × FitVar) :=
  varlist.map fun sv =>
    match opt_values.lookup sv.1 with
    | some v => (sv.1, { sv.2 with value := v })
    | none => sv

/-- Supporting lemma for the C4 report: in the per-run (non-global) path a
symbol absent from the optimizer output — in particular every fixed
parameter, which `get_unfixed_symbols()` excludes — keeps its `FitVar`,
with its stored value, verbatim in the resolved set. -/
theorem resolve_non_global_keeps_missing_symbols
    (varlist : List (String × FitVar)) (opt_values : List (String × ℚ))
    (s : String) (v : FitVar) (hmem : (s, v) ∈ varlist)
    (hnone : opt_values.lookup s = none) :
    (s, v) ∈ resolve_non_global_values varlist opt_values := by
  induction varlist with
  | nil => cases hmem
  | cons hd tl ih =>
    unfold resolve_non_global_values
    rw [List.map_cons]
    rcases List.mem_cons.mp hmem with h | h
    · rw [← h]
      simp only [hnone]
      exact List.mem_cons_self _ _
    · exact List.mem_cons_of_mem _ (ih h)

/-! ## Textual substitution before compilation (fit.py, lines 428-438) -/

/-- Boolean test that `pat` is a prefix of `s`. -/
def isPre : List Char → List Char → Bool
  | [], _ => true
  | _, [] => false
  | a :: as, b :: bs => a = b && isPre as bs

/-- Python `str.replace`: replaces every non-overlapping occurrence of the
pattern, scanning left to right.  Fuel-indexed to keep the recursion
structural (and hence kernel-reducible); fuel equal to the string length
suffices because each step consumes at least one character when the
pattern is non-empty (parameter symbols are never empty). -/
def pyReplaceAux : ℕ → List Char → List Char → List Char → List Char
  | 0, s, _, _ => s
  | fuel + 1, s, pat, rep =>
    if !pat.isEmpty && isPre pat s then
      rep ++ pyReplaceAux fuel (s.drop pat.length) pat rep
    else
      match s with
      | [] => []
      | c :: rest => c :: pyReplaceAux fuel rest pat rep

/-- Python `str.replace` on character lists. -/
def pyReplace (s pat rep : List Char) : List Char :=
  pyReplaceAux s.length s pat rep

/-- `FitEngine._replace_fixed` (fit.py, lines 428-433): for each fixed
symbol paired with the decimal rendering of its value, performs a plain
`str.replace` of the symbol by the value text inside the expression.  The
caller-side `str(value)` rendering is taken as the given replacement
string.  The source carries the comment "fixme bug when smaller variable
names (like 'd') occur in other variables". -/
def replace_fixed (function : List Char)
    (symbols : List (List Char)) (values : List (List Char)) : List Char :=
  (List.zip symbols values).foldl (fun f sv => pyReplace f sv.1 sv.2) function

/-- `FitEngine._replace_var_with` (fit.py, lines 435-438): a plain
`str.replace` of the old symbol by the run-suffixed symbol, carrying the
same "fixme bug" comment. -/
def replace_var_with (function old_symbol new_symbol : List Char) :
    List Char :=
  pyReplace function old_symbol new_symbol

/-- C6 (code_bug evaluation): the claim says both pre-compilation rewrites
replace only whole identifiers, leaving a parameter name occurring as a
proper substring of a longer identifier unchanged.  Both rewrites are
plain substring replacement: substituting the fixed parameter "d" by
"2.0" inside "delta*t" rewrites the interior of "delta" giving
"2.0elta*t", and renaming "b" to "brun1" inside "beta*t" gives
"brun1eta*t". -/
theorem C6_substring_replacement :
    replace_fixed ("delta*t".data) ["d".data] ["2.0".data] =
      ("2.0elta*t".data) ∧
    replace_var_with ("beta*t".data) ("b".data) ("brun1".data) =
      ("brun1eta*t".data) := by
  constructor
  · rfl
  · rfl

/-! ## Expression parser (`parse`, fit.py lines 469-518) -/

/-- Python `str.isalpha` on the character alphabet this application
exercises: ASCII letters plus the Greek and Coptic block used by the
built-in model strings. -/
def pyIsAlpha (c : Char) : Bool :=
  c.isAlpha || (0x370 ≤ c.toNat && c.toNat ≤ 0x3FF)

/-- Python `str.isspace` on the whitespace this application exercises. -/
def pyIsSpace (c : Char) : Bool :=
  c = ' ' || c = '\t' || c = '\n' || c = '\r'

/-- Python `str.lower` on this application's alphabet (ASCII case fold;
the Greek letters used are already lowercase or are left unchanged just
as the comparison sets expect). -/
def pyToLower (c : Char) : Char :=
  if 'A' ≤ c && c ≤ 'Z' then Char.ofNat (c.toNat + 32) else c

/-- `operator_set` of `parse` (fit.py, line 474). -/
def operator_set : List Char :=
  ['+', '-', '/', '*', '(', ')', '[', ']', '\x7b', '\x7d', '^', '!']

/-- `key_1_char_set` of `parse` (fit.py, line 475): 'e', 'i' and the
pi glyph. -/
def key_1_char_set : List Char := ['e', 'i', 'π']

/-- `key_2_char_set` of `parse` (fit.py, line 476).  In the source this is
the parenthesized STRING "pi", not a 1-tuple, and the Python `in` test on
a string is substring containment: the slice matches when it is "pi",
"p", "i" or empty (the 1-character slices arise at the end of the input).
The argument is the lowered slice `s[i:i+2]`. -/
def key2Match (l : List Char) : Bool :=
  l = ['p', 'i'] || l = ['p'] || l = ['i'] || l = []

/-- `key_3_char_set` of `parse` (fit.py, line 477); tuple membership is
equality. -/
def key3Match (l : List Char) : Bool :=
  l = "sin".data || l = "cos".data || l = "tan".data || l = "exp".data

/-- `key_4_char_set` of `parse` (fit.py, line 478). -/
def key4Match (l : List Char) : Bool :=
  l = "sinh".data || l = "cosh".data || l = "tanh".data

/-- The scanning loop of `parse` (fit.py, lines 484-514), producing the
successive closed identifier strings in order (empty ones included), with
the trailing `free_variable` join appended at the end.  The first argument
to each step is the remaining input; `fv` is the identifier accumulated so
far.  A `skip_chars` run of the source is modelled by dropping the skipped
characters outright.  Fuel keeps the recursion structural; fuel equal to
the input length suffices since every step consumes at least one
character. -/
def parseIds : ℕ → List Char → List Char → List (List Char)
  | 0, _, fv => [fv]
  | _ + 1, [], fv => [fv]
  | fuel + 1, c :: rest, fv =>
    if pyIsSpace c || c ∈ operator_set then
      fv :: parseIds fuel rest []
    else if pyIsAlpha c then
      if key4Match (((c :: rest).take 4).map pyToLower) then
        parseIds fuel (rest.drop 3) fv
      else if key3Match (((c :: rest).take 3).map pyToLower) then
        parseIds fuel (rest.drop 2) fv
      else if key2Match (((c :: rest).take 2).map pyToLower) then
        parseIds fuel (rest.drop 1) fv
      else if fv.isEmpty &&
          (c ∈ key_1_char_set || pyToLower c ∈ key_1_char_set) &&
          (match rest with
           | [] => true
           | r :: _ => r ∈ operator_set || pyIsSpace r) then
        parseIds fuel rest fv
      else
        parseIds fuel rest (fv ++ [c])
    else if c.isDigit then
      if fv.isEmpty then parseIds fuel rest fv
      else parseIds fuel rest (fv ++ [c])
    else
      parseIds fuel rest fv

/-- `parse` (fit.py, lines 469-518): collects the closed identifiers into
a set (modelled by `dedup` of the order-preserving list), then executes
`free_set.remove('')`.  Python `set.remove` raises KeyError when the
element is absent, modelled by `none`: the empty string is present exactly
when some identifier closed while empty (or the input ended with no open
identifier). -/
def parse (s : List Char) : Option (List (List Char)) :=
  let ids := parseIds s.length s []
  if [] ∈ ids then some ((ids.filter fun l => !l.isEmpty).dedup) else none

/-- C3 counterexample: the claim says
`parse_free_parameters("lambda*t + beta")` returns exactly
the set containing "lambda" and "beta"; the code's `parse` also returns
the independent variable "t" (its exclusion happens later, inside
`lambdify`), so the result is the three-element set. -/
theorem C3_parse_counterexample :
    parse ("lambda*t + beta".data) =
      some ["lambda".data, "t".data, "beta".data] ∧
    "t".data ∈ ["lambda".data, "t".data, "beta".data] ∧
    "t".data ∉ ["lambda".data, "beta".data] := by
  refine ⟨rfl, ?_, ?_⟩
  · decide
  · decide

/-- C3 (amended): `parse` returns the set of free identifier names with
the recognized function and constant tokens excluded, but WITH the
independent variable included — its exclusion is performed later by
`lambdify`.  Concretely, `parse("lambda*t + beta")` returns the set of
"lambda", "t" and "beta", and `parse("sin(omega*t)")` returns the set of
"omega" and "t" (the recognized token "sin" is not misclassified as a
parameter). -/
theorem C3_parse_amended :
    parse ("lambda*t + beta".data) =
      some ["lambda".data, "t".data, "beta".data] ∧
    parse ("sin(omega*t)".data) = some ["omega".data, "t".data] := by
  constructor
  · rfl
  · rfl

/-! ## Rebinning (`RunData.bin_data`, BeamsModel.py lines 267-305) -/

/-- `np.mean` of a list of values: sum over length. -/
def npMean (l : List ℚ) : ℚ := l.sum / (l.length : ℚ)

/-- The asymmetry loop of `RunData.bin_data` (BeamsModel.py, lines
291-303, identical in both branches): starting the running index
`binned_bins` at `b`, each of the `n` output bins is `np.mean` of the
slice `asymmetry[binned_bins : binned_bins + k]` and the running index
advances by `k`. -/
def bin_asymmetry_loop (asymmetry : List ℚ) (k : ℕ) : ℕ → ℕ → List ℚ
  | _, 0 => []
  | b, n + 1 =>
    npMean ((asymmetry.drop b).take k) ::
      bin_asymmetry_loop asymmetry k (b + k) n

/-- The uncertainty loop of `RunData.bin_data` (BeamsModel.py, lines
301-302), up to the final square root: each of the `n` output entries is
`np.sum([u**2 for u in uncertainty[binned_bins : binned_bins + k]])`; the
source stores `np.sqrt` of this divided by `k` (the square root, not
being rational-valued, is applied in the theorems). -/
def bin_uncertainty_sumsq_loop (uncertainty : List ℚ) (k : ℕ) :
    ℕ → ℕ → List ℚ
  | _, 0 => []
  | b, n + 1 =>
    (((uncertainty.drop b).take k).map fun u => u ^ 2).sum ::
      bin_uncertainty_sumsq_loop uncertainty k (b + k) n

/-- `RunData.bin_data` (BeamsModel.py, lines 267-305).  Bin sizes arrive
in nanoseconds and are converted to microseconds; `initial_bin` is
`int(np.floor(begin_time / bin_full))`, the samples per output bin are
`int(np.floor(bin_binned / bin_full))` and the output count is
`int(np.floor((end_time - begin_time) / bin_binned))` (the `Int.toNat`
matches Python for the nonnegative times used).  Returns
`[binned_asymmetry, binned_time, binned_uncertainty]`; the third
component holds the per-bin sums of squared uncertainties (see
`bin_uncertainty_sumsq_loop`) and is the empty list when
`slider_moving` is set. -/
def bin_data (asymmetry uncertainty : List ℚ)
    (binsize final_bin_size begin_time end_time : ℚ)
    (slider_moving : Bool) : List ℚ × List ℚ × List ℚ :=
  let bin_full := binsize / 1000
  let bin_binned := final_bin_size / 1000
  let initial_bin := (⌊begin_time / bin_full⌋).toNat
  let binned_indices_per_bin := (⌊bin_binned / bin_full⌋).toNat
  let binned_indices_total :=
    (⌊(end_time - begin_time) / bin_binned⌋).toNat
  let binned_time := (List.range binned_indices_total).map fun (index : ℕ) =>
    begin_time + (index : ℚ) * bin_binned
  let binned_asymmetry := bin_asymmetry_loop asymmetry
    binned_indices_per_bin initial_bin binned_indices_total
  let binned_uncertainty :=
    if slider_moving then []
    else bin_uncertainty_sumsq_loop uncertainty
      binned_indices_per_bin initial_bin binned_indices_total
  (binned_asymmetry, binned_time, binned_uncertainty)

/-- Loop invariant of the asymmetry loop: after `j` iterations the
running index is `b + j * k`, so output `j` averages the slice starting
there. -/
theorem bin_asymmetry_loop_getElem (asymmetry : List ℚ) (k : ℕ) :
    ∀ n b j : ℕ, j < n →
      (bin_asymmetry_loop asymmetry k b n)[j]? =
        some (npMean ((asymmetry.drop (b + j * k)).take k)) := by
  intro n
  induction n with
  | zero => intro b j hj; exact absurd hj (Nat.not_lt_zero j)
  | succ n ih =>
    intro b j hj
    cases j with
    | zero =>
      show (npMean ((asymmetry.drop b).take k) ::
        bin_asymmetry_loop asymmetry k (b + k) n)[0]? = _
      rw [List.getElem?_cons_zero]
      norm_num
    | succ j =>
      show (npMean ((asymmetry.drop b).take k) ::
        bin_asymmetry_loop asymmetry k (b + k) n)[j + 1]? = _
      rw [List.getElem?_cons_succ, ih (b + k) j (Nat.lt_of_succ_lt_succ hj)]
      have harith : b + k + j * k = b + (j + 1) * k := by ring
      rw [harith]

/-- Loop invariant of the uncertainty loop, same running index. -/
theorem bin_uncertainty_sumsq_loop_getElem (uncertainty : List ℚ) (k : ℕ) :
    ∀ n b j : ℕ, j < n →
      (bin_uncertainty_sumsq_loop uncertainty k b n)[j]? =
        some ((((uncertainty.drop (b + j * k)).take k).map
          fun u => u ^ 2).sum) := by
  intro n
  induction n with
  | zero => intro b j hj; exact absurd hj (Nat.not_lt_zero j)
  | succ n ih =>
    intro b j hj
    cases j with
    | zero =>
      show ((((uncertainty.drop b).take k).map fun u => u ^ 2).sum ::
        bin_uncertainty_sumsq_loop uncertainty k (b + k) n)[0]? = _
      rw [List.getElem?_cons_zero]
      norm_num
    | succ j =>
      show ((((uncertainty.drop b).take k).map fun u => u ^ 2).sum ::
        bin_uncertainty_sumsq_loop uncertainty k (b + k) n)[j + 1]? = _
      rw [List.getElem?_cons_succ, ih (b + k) j (Nat.lt_of_succ_lt_succ hj)]
      have harith : b + k + j * k = b + (j + 1) * k := by ring
      rw [harith]

/-- A slice of `k` elements wholly inside the list has length `k`. -/
theorem slice_length_eq (l : List ℚ) (b k : ℕ) (h : b + k ≤ l.length) :
    ((l.drop b).take k).length = k := by
  rw [List.length_take, List.length_drop]
  omega

/-- C5: with `k = floor(target/source)` samples per output bin, every
output asymmetry value is the arithmetic mean of its `k` grouped source
samples, every output uncertainty is the square root of the sum of the
`k` grouped squared uncertainties divided by `k`, and in slider-moving
mode the uncertainty output is the empty list. -/
theorem C5_bin_data (asymmetry uncertainty : List ℚ)
    (binsize final_bin_size begin_time end_time : ℚ) (j k ib total : ℕ)
    (hk : k = (⌊(final_bin_size / 1000) / (binsize / 1000)⌋).toNat)
    (hib : ib = (⌊begin_time / (binsize / 1000)⌋).toNat)
    (htotal : total =
      (⌊(end_time - begin_time) / (final_bin_size / 1000)⌋).toNat)
    (hj : j < total)
    (hlen : ib + total * k ≤ asymmetry.length)
    (hlenu : ib + total * k ≤ uncertainty.length) :
    (((asymmetry.drop (ib + j * k)).take k).length = k ∧
      (bin_data asymmetry uncertainty binsize final_bin_size begin_time
        end_time false).1[j]? =
        some (((asymmetry.drop (ib + j * k)).take k).sum / (k : ℚ))) ∧
    ((((uncertainty.drop (ib + j * k)).take k).length = k ∧
      (bin_data asymmetry uncertainty binsize final_bin_size begin_time
        end_time false).2.2[j]? =
        some ((((uncertainty.drop (ib + j * k)).take k).map
          fun u => u ^ 2).sum) ∧
      Real.sqrt (((bin_data asymmetry uncertainty binsize final_bin_size
          begin_time end_time false).2.2.getD j 0 : ℚ)) / (k : ℝ) =
        Real.sqrt (((((uncertainty.drop (ib + j * k)).take k).map
          fun u => u ^ 2).sum : ℚ)) / (k : ℝ))) ∧
    (bin_data asymmetry uncertainty binsize final_bin_size begin_time
      end_time true).2.2 = [] := by
  subst hk hib htotal
  have hstep : (j + 1) *
      (⌊(final_bin_size / 1000) / (binsize / 1000)⌋).toNat ≤
      (⌊(end_time - begin_time) / (final_bin_size / 1000)⌋).toNat *
      (⌊(final_bin_size / 1000) / (binsize / 1000)⌋).toNat :=
    Nat.mul_le_mul_right _ (Nat.succ_le_of_lt hj)
  have hexp : (j + 1) *
      (⌊(final_bin_size / 1000) / (binsize / 1000)⌋).toNat =
      j * (⌊(final_bin_size / 1000) / (binsize / 1000)⌋).toNat +
      (⌊(final_bin_size / 1000) / (binsize / 1000)⌋).toNat := by ring
  rw [hexp] at hstep
  have hin : (⌊begin_time / (binsize / 1000)⌋).toNat +
      j * (⌊(final_bin_size / 1000) / (binsize / 1000)⌋).toNat +
      (⌊(final_bin_size / 1000) / (binsize / 1000)⌋).toNat ≤
      asymmetry.length := by omega
  have hinu : (⌊begin_time / (binsize / 1000)⌋).toNat +
      j * (⌊(final_bin_size / 1000) / (binsize / 1000)⌋).toNat +
      (⌊(final_bin_size / 1000) / (binsize / 1000)⌋).toNat ≤
      uncertainty.length := by omega
  have hgl := slice_length_eq asymmetry _ _ hin
  have hugl := slice_length_eq uncertainty _ _ hinu
  have hasym := bin_asymmetry_loop_getElem asymmetry
    ((⌊(final_bin_size / 1000) / (binsize / 1000)⌋).toNat)
    ((⌊(end_time - begin_time) / (final_bin_size / 1000)⌋).toNat)
    ((⌊begin_time / (binsize / 1000)⌋).toNat) j hj
  have huncq := bin_uncertainty_sumsq_loop_getElem uncertainty
    ((⌊(final_bin_size / 1000) / (binsize / 1000)⌋).toNat)
    ((⌊(end_time - begin_time) / (final_bin_size / 1000)⌋).toNat)
    ((⌊begin_time / (binsize / 1000)⌋).toNat) j hj
  have hmean : npMean ((asymmetry.drop
      ((⌊begin_time / (binsize / 1000)⌋).toNat +
        j * (⌊(final_bin_size / 1000) / (binsize / 1000)⌋).toNat)).take
      ((⌊(final_bin_size / 1000) / (binsize / 1000)⌋).toNat)) =
      ((asymmetry.drop ((⌊begin_time / (binsize / 1000)⌋).toNat +
        j * (⌊(final_bin_size / 1000) / (binsize / 1000)⌋).toNat)).take
      ((⌊(final_bin_size / 1000) / (binsize / 1000)⌋).toNat)).sum /
      (((⌊(final_bin_size / 1000) / (binsize / 1000)⌋).toNat : ℚ)) := by
    unfold npMean; rw [hgl]
  refine ⟨⟨hgl, hasym.trans (by rw [hmean])⟩, ⟨hugl, huncq, ?_⟩, rfl⟩
  have hproj : (bin_data asymmetry uncertainty binsize final_bin_size
      begin_time end_time false).2.2 =
      bin_uncertainty_sumsq_loop uncertainty
        ((⌊(final_bin_size / 1000) / (binsize / 1000)⌋).toNat)
        ((⌊begin_time / (binsize / 1000)⌋).toNat)
        ((⌊(end_time - begin_time) / (final_bin_size / 1000)⌋).toNat) := rfl
  have hgetd : (bin_data asymmetry uncertainty binsize final_bin_size
      begin_time end_time false).2.2.getD j 0 =
      ((((uncertainty.drop ((⌊begin_time / (binsize / 1000)⌋).toNat +
        j * (⌊(final_bin_size / 1000) / (binsize / 1000)⌋).toNat)).take
        ((⌊(final_bin_size / 1000) / (binsize / 1000)⌋).toNat)).map
        fun u => u ^ 2).sum) := by
    rw [List.getD_eq_getElem?_getD, hproj, huncq]
    rfl
  rw [hgetd]

/-- Witness for C5: asymmetry [1,3,5,7] and uncertainty [3,4,0,0] with
source bins of 1000 ns rebinned to 2000 ns over [0,4): k = 2 samples per
output bin, 2 output bins; output bin 0 averages [1,3] to 2 and sums
squared uncertainties 9+16 to 25, and slider mode returns no
uncertainties. -/
theorem C5_bin_data_witness :
    (bin_data [1, 3, 5, 7] [3, 4, 0, 0] 1000 2000 0 4 false).1[0]? =
      some 2 ∧
    (bin_data [1, 3, 5, 7] [3, 4, 0, 0] 1000 2000 0 4 false).2.2[0]? =
      some 25 ∧
    (bin_data [1, 3, 5, 7] [3, 4, 0, 0] 1000 2000 0 4 true).2.2 = [] := by
  have h := C5_bin_data [1, 3, 5, 7] [3, 4, 0, 0] 1000 2000 0 4 0 2 0 2
    (by norm_num; rfl) (by norm_num)
    (by norm_num; rfl) (by norm_num)
    (by norm_num) (by norm_num)
  refine ⟨h.1.2.trans (by norm_num), h.2.1.2.1.trans ?_, h.2.2⟩
  norm_num

/-! ## Model-string validation (`is_valid_expression`, fit.py lines
521-547) -/

/-- The characters after the first '=' of the expression: the slice
`expression[j+1:]` that the inner loop of `is_valid_expression` hands to
`sympy.sympify` at the first index `j` with `expression[j] == '='`. -/
def afterFirstEq : List Char → List Char
  | [] => []
  | c :: rest => if c = '=' then rest else afterFirstEq rest

/-- The character scan of `is_valid_expression` (fit.py, lines 525-547).
`sympifyOk` abstracts the external `sympy.sympify` call: it returns true
when its argument parses as an arithmetic expression.  `orig` is the full
expression (the inner loop re-scans it from the start for the first '=');
`openP` is `open_paren` and `iv` is `independent_variable`.  Before the
first '(' nothing but `open_paren` changes; once open, an '=' fails, a ')'
fails on an empty name and otherwise hands the right-hand side to sympify,
and any other character (including a second '(') is appended to the name.
The scan is only invoked when '=' occurs in `orig`, so the sympify branch
always corresponds to a found '='. -/
def ivScan (sympifyOk : List Char → Bool) (orig : List Char) :
    List Char → Bool → List Char → Bool
  | [], _, _ => false
  | c :: rest, openP, iv =>
    if openP then
      if c = '=' then false
      else if c = ')' then
        if iv.isEmpty then false else sympifyOk (afterFirstEq orig)
      else ivScan sympifyOk orig rest true (iv ++ [c])
    else ivScan sympifyOk orig rest (c == '(') iv

/-- `is_valid_expression` (fit.py, lines 521-547): false when no '=' is
present, otherwise the result of the scan (the trailing `for`-`else`
returns false when the scan runs off the end of the string). -/
def is_valid_expression (sympifyOk : List Char → Bool) (e : List Char) :
    Bool :=
  if '=' ∈ e then ivScan sympifyOk e e false [] else false

/-- If sympify rejects the right-hand side after the first '=', the scan
can only answer false, whatever its state. -/
theorem ivScan_eq_false_of_sympify_false (sympifyOk : List Char → Bool)
    (orig : List Char) (hs : sympifyOk (afterFirstEq orig) = false) :
    ∀ (s : List Char) (openP : Bool) (iv : List Char),
      ivScan sympifyOk orig s openP iv = false := by
  intro s
  induction s with
  | nil => intro openP iv; rfl
  | cons c rest ih =>
    intro openP iv
    cases openP with
    | false => exact ih _ _
    | true =>
      show (if c = '=' then false
        else if c = ')' then
          if iv.isEmpty then false else sympifyOk (afterFirstEq orig)
        else ivScan sympifyOk orig rest true (iv ++ [c])) = false
      split_ifs with h1 h2 h3
      · rfl
      · rfl
      · exact hs
      · exact ih _ _

/-- While `open_paren` is false, characters other than '(' are skipped
without touching the state. -/
theorem ivScan_skip_before_paren (sympifyOk : List Char → Bool)
    (orig : List Char) :
    ∀ (a t iv : List Char), '(' ∉ a →
      ivScan sympifyOk orig (a ++ t) false iv =
        ivScan sympifyOk orig t false iv := by
  intro a
  induction a with
  | nil => intro t iv _; rfl
  | cons c cs ih =>
    intro t iv h
    have hc : c ≠ '(' := fun hh => h (hh ▸ List.mem_cons_self c cs)
    have hcb : (c == '(') = false := beq_eq_false_iff_ne.mpr hc
    rw [List.cons_append]
    show ivScan sympifyOk orig (cs ++ t) (c == '(') iv =
      ivScan sympifyOk orig t false iv
    rw [hcb]
    exact ih t iv (fun hm => h (List.mem_cons_of_mem _ hm))

/-- C7: model-string validation fails closed — it returns false for every
string with no '=', for every string whose declared independent-variable
name (the text between the first '(' and the following ')') is empty, and
for every string whose right-hand side sympify rejects; and on
"A(t)=a*t+b" it returns exactly sympify's verdict on "a*t+b" (hence true),
while "a*t+b" with no declaration is false. -/
theorem C7_validate_model_string :
    (∀ (sympifyOk : List Char → Bool) (e : List Char),
      '=' ∉ e → is_valid_expression sympifyOk e = false) ∧
    (∀ (sympifyOk : List Char → Bool) (a b : List Char), '(' ∉ a →
      is_valid_expression sympifyOk (a ++ '(' :: ')' :: b) = false) ∧
    (∀ (sympifyOk : List Char → Bool) (e : List Char),
      sympifyOk (afterFirstEq e) = false →
      is_valid_expression sympifyOk e = false) ∧
    (∀ sympifyOk : List Char → Bool,
      is_valid_expression sympifyOk ("A(t)=a*t+b".data) =
        sympifyOk ("a*t+b".data)) ∧
    (∀ sympifyOk : List Char → Bool,
      is_valid_expression sympifyOk ("a*t+b".data) = false) := by
  refine ⟨?_, ?_, ?_, ?_, ?_⟩
  · intro o e h
    simp [is_valid_expression, h]
  · intro o a b h
    unfold is_valid_expression
    split_ifs with hmem
    · rw [ivScan_skip_before_paren o _ a ('(' :: ')' :: b) [] h]
      rfl
    · rfl
  · intro o e h
    unfold is_valid_expression
    split_ifs with hmem
    · exact ivScan_eq_false_of_sympify_false o e h e false []
    · rfl
  · intro o
    rfl
  · intro o
    rfl

/-- Witness for C7: with an always-accepting sympify, "A(t)=a*t+b"
validates, "a*t+b" (no '=') does not, "x+1" (no '=') does not, and
"A()=x" — an empty independent-variable name — does not; with an
always-rejecting sympify even "A(t)=a*t+b" is rejected. -/
theorem C7_validate_model_string_witness :
    is_valid_expression (fun _ => true) ("A(t)=a*t+b".data) = true ∧
    is_valid_expression (fun _ => true) ("a*t+b".data) = false ∧
    is_valid_expression (fun _ => true) ("x+1".data) = false ∧
    is_valid_expression (fun _ => true)
      ("A".data ++ '(' :: ')' :: "=x".data) = false ∧
    is_valid_expression (fun _ => false) ("A(t)=a*t+b".data) = false := by
  refine ⟨(C7_validate_model_string.2.2.2.1 (fun _ => true)).trans rfl,
    C7_validate_model_string.2.2.2.2 (fun _ => true),
    C7_validate_model_string.1 (fun _ => true) ("x+1".data) (by decide),
    C7_validate_model_string.2.1 (fun _ => true) ("A".data) ("=x".data)
      (by decide),
    C7_validate_model_string.2.2.1 (fun _ => false) ("A(t)=a*t+b".data) rfl⟩

/-! ## Uncertainty estimation (`get_std_unc`, fit.py lines 441-466) -/

/-- Inverse of a square rational matrix via the adjugate, as the genuine
linear-algebra inverse that `np.linalg.inv` computes (see `matInvQ_mul`);
`np.linalg.inv` raises LinAlgError on a singular matrix, so the theorems
that depend on it carry a nonzero-determinant hypothesis. -/
def matInvQ {p : ℕ} (A : Matrix (Fin p) (Fin p) ℚ) :
    Matrix (Fin p) (Fin p) ℚ :=
  A.det⁻¹ • A.adjugate

/-- With a nonzero determinant `matInvQ` is a left inverse. -/
theorem matInvQ_mul {p : ℕ} (A : Matrix (Fin p) (Fin p) ℚ)
    (h : A.det ≠ 0) : matInvQ A * A = 1 := by
  unfold matInvQ
  rw [Matrix.smul_mul, Matrix.adjugate_mul, smul_smul, inv_mul_cancel₀ h,
    one_smul]

/-- The fields of the `scipy.optimize.least_squares` output that
`get_std_unc` reads: the final residual vector (`result.fun` in the
source; `fun` is a Lean keyword), the solution vector `result.x`, and the
Jacobian `result.jac`. -/
structure LsqResult (n p : ℕ) where
  residual : Fin n → ℚ
  x : Fin p → ℚ
  jac : Matrix (Fin n) (Fin p) ℚ

/-- The weights of `get_std_unc` (fit.py, lines 455-457): the error array
defaults to `np.ones_like(data)` when not provided, and
`weights = 1.0 / error ** 2`. -/
def std_unc_weights {n : ℕ} (error : Option (Fin n → ℚ)) : Fin n → ℚ :=
  fun i => 1 / ((error.getD fun _ => 1) i) ^ 2

/-- The square of `rw` from `get_std_unc` (fit.py, line 458):
`rw = np.sqrt((result.fun ** 2).sum() / (data ** 2 * weights).sum())`.
The source uses `rw` only as `rw ** 2` (in the covariance and in chisq),
and its argument is a quotient of sums of squares, so the square root and
the squaring cancel exactly; the squared quantity is kept, staying in ℚ. -/
def rwSq {n p : ℕ} (result : LsqResult n p) (data : Fin n → ℚ)
    (error : Option (Fin n → ℚ)) : ℚ :=
  (∑ i, result.residual i ^ 2) / (∑ i, data i ^ 2 * std_unc_weights error i)

/-- The square of `r_exp` from `get_std_unc` (fit.py, lines 459-460):
`r_exp = np.sqrt((data.shape[0] - num_params + num_constraints) / (data ** 2 * weights).sum())`
with `num_params = len(result.x)`.  `r_exp` is likewise only used squared;
the cancellation is exact whenever the degrees-of-freedom numerator is
nonnegative (otherwise NumPy's `r_exp` is NaN, which the nonnegativity
hypotheses of the theorems exclude). -/
def rExpSq {n p : ℕ} (_result : LsqResult n p) (data : Fin n → ℚ)
    (error : Option (Fin n → ℚ)) (num_constraints : ℕ) : ℚ :=
  ((n : ℚ) - (p : ℚ) + (num_constraints : ℚ)) /
    (∑ i, data i ^ 2 * std_unc_weights error i)

/-- `get_std_unc` (fit.py, lines 441-466): forms `JᵗJ` from the Jacobian,
the covariance `inv(JᵗJ) * rw²/r_exp²`, and returns
`(cov.diagonal(), chisq)` with `chisq = rw²/r_exp²`.  The source's first
return value is `np.sqrt(cov.diagonal())`; the (irrational) square root is
applied in the theorems via `Real.sqrt`, the rational diagonal is returned
here. -/
def get_std_unc {n p : ℕ} (result : LsqResult n p) (data : Fin n → ℚ)
    (error : Option (Fin n → ℚ)) (num_constraints : ℕ) :
    (Fin p → ℚ) × ℚ :=
  let jtj := result.jac.transpose * result.jac
  let cov := (rwSq result data error /
    rExpSq result data error num_constraints) • matInvQ jtj
  (fun j => cov j j, rwSq result data error /
    rExpSq result data error num_constraints)

/-- C8: `get_std_unc` defaults absent errors to all-ones, returns
parameter standard uncertainties equal to the square roots of the diagonal
of `inv(JᵗJ) * (rw/r_exp)²` (with `inv` the genuine inverse whenever `JᵗJ`
is nonsingular) and the chi-square statistic `rw²/r_exp²`; and on a
perfect (zero-residual) fit with positive weighted data norm and positive
degrees of freedom, the chi-square and every parameter uncertainty are
exactly 0. -/
theorem C8_get_std_unc {n p : ℕ} (result : LsqResult n p)
    (data : Fin n → ℚ) (error : Option (Fin n → ℚ))
    (num_constraints : ℕ) :
    (get_std_unc result data none num_constraints =
      get_std_unc result data (some fun _ => 1) num_constraints) ∧
    ((get_std_unc result data error num_constraints).2 =
      rwSq result data error / rExpSq result data error num_constraints) ∧
    (∀ j, Real.sqrt ((get_std_unc result data error num_constraints).1 j) =
      Real.sqrt ((((rwSq result data error /
        rExpSq result data error num_constraints) •
        matInvQ (result.jac.transpose * result.jac)) j j : ℚ))) ∧
    ((result.jac.transpose * result.jac).det ≠ 0 →
      matInvQ (result.jac.transpose * result.jac) *
        (result.jac.transpose * result.jac) = 1) ∧
    ((∀ i, result.residual i = 0) →
      0 < ∑ i, data i ^ 2 * std_unc_weights error i →
      0 < (n : ℚ) - (p : ℚ) + (num_constraints : ℚ) →
      (get_std_unc result data error num_constraints).2 = 0 ∧
      ∀ j, Real.sqrt ((get_std_unc result data error num_constraints).1 j)
        = 0) := by
  refine ⟨rfl, rfl, fun j => rfl, matInvQ_mul _, ?_⟩
  intro hres hS hdof
  have hsum : (∑ i, result.residual i ^ 2) = 0 := by
    simp [hres]
  have hrw : rwSq result data error = 0 := by
    unfold rwSq
    rw [hsum, zero_div]
  constructor
  · show rwSq result data error /
      rExpSq result data error num_constraints = 0
    rw [hrw, zero_div]
  · intro j
    have hdiag : (get_std_unc result data error num_constraints).1 j
        = 0 := by
      show ((rwSq result data error /
        rExpSq result data error num_constraints) •
        matInvQ (result.jac.transpose * result.jac)) j j = 0
      rw [hrw, zero_div]
      simp
    rw [hdiag]
    simp [Real.sqrt_zero]

/-- Witness for C8: two data points fit perfectly (zero residual) by one
parameter with Jacobian column (1,1): the weighted data norm is 2 > 0, the
degrees of freedom are 2 - 1 + 0 = 1 > 0, and both the chi-square and the
single parameter uncertainty evaluate to 0. -/
theorem C8_get_std_unc_witness :
    (get_std_unc
      (⟨![0, 0], ![1], Matrix.of ![![1], ![1]]⟩ : LsqResult 2 1)
      ![1, 1] none 0).2 = 0 ∧
    Real.sqrt ((get_std_unc
      (⟨![0, 0], ![1], Matrix.of ![![1], ![1]]⟩ : LsqResult 2 1)
      ![1, 1] none 0).1 0) = 0 := by
  have h := (C8_get_std_unc
    (⟨![0, 0], ![1], Matrix.of ![![1], ![1]]⟩ : LsqResult 2 1)
    ![1, 1] none 0).2.2.2.2
    (by intro i; fin_cases i <;> rfl)
    (by simp [std_unc_weights, Fin.sum_univ_two])
    (by norm_num)
  exact ⟨h.1, h.2 0⟩

/-! ## Spectral transform (`RunData.calculate_fft`, BeamsModel.py lines
247-265) -/

/-- The frequency axis of `calculate_fft` (BeamsModel.py, lines 250-253):
`k / (n * bin_size / 1000)` over the first half of the `n` sample
indices (`int(n/2)` of them). -/
def fft_frequencies (bin_size : ℚ) (asymmetry : List ℚ) : List ℚ :=
  (List.range (asymmetry.length / 2)).map fun (k : ℕ) =>
    (k : ℚ) / ((asymmetry.length : ℚ) * bin_size / 1000)

/-- The magnitude spectrum of `calculate_fft` (BeamsModel.py, lines
254-256): row 0 of `abs(np.fft.fft([asymmetry, times]) / n)` over the
first half of the indices — row 0 is the transform of the asymmetry — with
the zero-frequency entry then forced to 0 (`y_values[0] = 0`).  `fftAbs`
abstracts the external NumPy FFT: `fftAbs a r` is `abs(fft(a)/n)[r]`. -/
def fft_y_values (fftAbs : List ℚ → ℕ → ℚ) (asymmetry : List ℚ) :
    List ℚ :=
  ((List.range (asymmetry.length / 2)).map fun r =>
    fftAbs asymmetry r).set 0 0

/-- The 300 spline sample points of `calculate_fft` (BeamsModel.py, line
259): `np.linspace(frequencies.min(), frequencies.max(), 300)`.  (The
`np.insert(x_smooth, 0, 0)` on line 260 discards its result and has no
effect; `np.min`/`np.max` error on an empty axis, so the empty default
here is junk the theorems never rely on.) -/
def fft_x_smooth (bin_size : ℚ) (asymmetry : List ℚ) : List ℚ :=
  let freqs := fft_frequencies bin_size asymmetry
  let fmin := freqs.foldr min (freqs.headD 0)
  let fmax := freqs.foldr max (freqs.headD 0)
  (List.range 300).map fun (i : ℕ) => fmin + (fmax - fmin) * (i : ℚ) / 299

/-- `RunData.calculate_fft` (BeamsModel.py, lines 247-265): computes the
frequency axis and the magnitude spectrum with DC forced to 0, fits a
zero-smoothing-factor spline through them (`splineEval freqs ys xs`
abstracts `scipy.interpolate.UnivariateSpline(freqs, ys)` with smoothing
factor 0, evaluated at `xs`), and returns `[x_smooth, y_smooth]` — the
300 resampled smoothed points.  `times` enters the FFT call as the
discarded second row. -/
def calculate_fft (fftAbs : List ℚ → ℕ → ℚ)
    (splineEval : List ℚ → List ℚ → List ℚ → List ℚ)
    (bin_size : ℚ) (asymmetry _times : List ℚ) : List ℚ × List ℚ :=
  (fft_x_smooth bin_size asymmetry,
   splineEval (fft_frequencies bin_size asymmetry)
     (fft_y_values fftAbs asymmetry) (fft_x_smooth bin_size asymmetry))

/-- C9 counterexample: the claim says the transform returns the
unsmoothed magnitude spectrum of the first half of the DFT as its output.
On an 8-sample asymmetry the unsmoothed spectrum has 4 entries, while the
function returns the 300-point spline resampling: the returned second
component differs from the unsmoothed spectrum (here with a concrete FFT
oracle giving magnitudes r+1 and a spline oracle returning zeros). -/
theorem C9_fft_counterexample :
    (calculate_fft (fun _ r => (r : ℚ) + 1) (fun _ _ xs => xs.map fun _ => 0)
      1 (List.replicate 8 0) (List.replicate 8 0)).2 ≠
      fft_y_values (fun _ r => (r : ℚ) + 1) (List.replicate 8 0) := by
  intro h
  have hlen := congrArg List.length h
  simp only [calculate_fft, fft_x_smooth, fft_y_values, List.length_map,
    List.length_set, List.length_range, List.length_replicate] at hlen
  exact absurd hlen (by norm_num)

/-- C9 (amended): the transform forces the zero-frequency bin of the
internal magnitude spectrum to 0, and returns the 300-sample
spline-smoothed resampling of that spectrum — the pair of the 300 sample
abscissae and the spline values through the (DC-zeroed, unsmoothed)
spectrum — rather than the unsmoothed spectrum itself, which remains an
intermediate. -/
theorem C9_fft_amended :
    (∀ (fftAbs : List ℚ → ℕ → ℚ) (a : List ℚ), 0 < a.length / 2 →
      (fft_y_values fftAbs a)[0]? = some 0) ∧
    (∀ (fftAbs : List ℚ → ℕ → ℚ)
      (splineEval : List ℚ → List ℚ → List ℚ → List ℚ)
      (bin_size : ℚ) (a t : List ℚ),
      calculate_fft fftAbs splineEval bin_size a t =
        (fft_x_smooth bin_size a,
         splineEval (fft_frequencies bin_size a) (fft_y_values fftAbs a)
           (fft_x_smooth bin_size a)) ∧
      (calculate_fft fftAbs splineEval bin_size a t).1.length = 300) := by
  constructor
  · intro fftAbs a ha
    obtain ⟨m, hm⟩ : ∃ m, a.length / 2 = m + 1 :=
      ⟨a.length / 2 - 1, by omega⟩
    rw [fft_y_values, hm, List.range_succ_eq_map]
    simp [List.set]
  · intro fftAbs splineEval bin_size a t
    refine ⟨rfl, ?_⟩
    simp only [calculate_fft, fft_x_smooth, List.length_map,
      List.length_range]

/-- Witness for C9 (amended) on the 8-sample zero asymmetry with the
concrete oracles of the counterexample: the DC bin of the internal
spectrum is 0 and the returned abscissa axis has 300 samples. -/
theorem C9_fft_amended_witness :
    (fft_y_values (fun _ r => (r : ℚ) + 1) (List.replicate 8 0))[0]? =
      some 0 ∧
    (calculate_fft (fun _ r => (r : ℚ) + 1) (fun _ _ xs => xs.map fun _ => 0)
      1 (List.replicate 8 0) (List.replicate 8 0)).1.length = 300 :=
  ⟨C9_fft_amended.1 _ _ (by simp),
   (C9_fft_amended.2 (fun _ r => (r : ℚ) + 1)
     (fun _ _ xs => xs.map fun _ => 0) 1 (List.replicate 8 0)
     (List.replicate 8 0)).2⟩

end Beams
